import Mathlib

/-!
Formal model of the klayout-converter core (`src/klayout_converter.py`).

The repository's core consists of two functions:

* `parse_polygon(shape, name_property, scale_factor)` — normalizes one raw
  klayout shape into `{name, hull_points, hole_points}`;
* `load_klayout(file, cell, name_property, length_unit_exponent)` — checks the
  input file, reads the layout, computes the scale factor, locates the cell,
  and iterates layers and shapes, delegating each shape to `parse_polygon`.

The external klayout geometry library (`klayout.db`) is modelled abstractly:
a `GeomEngine R` bundles the operations the source calls on it —
`Polygon.split`, `Region(...)`, region addition (`+=`), and
`Region.merged().each()` — over an abstract region carrier type `R`.
Polygon vertices are integers (database units, as in klayout); scaled output
coordinates are rationals (Python floats idealized as exact arithmetic).
The float expression `10 ** (-6 + math.log10(layout.dbu) - length_unit_exponent)`
on line 93 of the source is idealized over the reals as `scaleFactorSrc`; its
exact rational value (for positive `dbu`) is `scaleFactorQ`, which the
executable pipeline uses (theorem `scaleFactorSrc_eq_scaleFactorQ` proves the
two agree).  Python exceptions are modelled with `Option` (for the two
unguarded `next(...)` calls in `parse_polygon`) and `Except LoadError` (for
`load_klayout`): `ValueError` on a bad path is `LoadError.invalidInput`,
`KeyError` on a missing cell is `LoadError.missingCell`, and a propagated
`StopIteration` from `parse_polygon` is `LoadError.stopIteration`, following
the spec's error taxonomy.
-/

/-- A polygon vertex in integer database units (klayout's point type: `p.x`,
`p.y` are database-unit integers). -/
structure DBPoint where
  x : Int
  y : Int
  deriving DecidableEq, Repr

/-- A klayout polygon: one outer hull (`each_point_hull` order) and a list of
holes (`holes()` count, `each_point_hole(i)` points). -/
structure Polygon where
  hull : List DBPoint
  holes : List (List DBPoint)
  deriving DecidableEq, Repr

/-- klayout `poly.each_point_hull()`: the hull vertices in native order. -/
def Polygon.each_point_hull (p : Polygon) : List DBPoint := p.hull

/-- klayout `poly.each_point_hole(i)`: the vertices of hole `i` in native
order.  The source only calls this for `i` in `range(poly.holes())`, where it
is total; out of range we return `[]`. -/
def Polygon.each_point_hole (p : Polygon) (i : Nat) : List DBPoint :=
  p.holes.getD i []

/-- A klayout `Shape`: its polygon (`shape.polygon`) and its user property
bag (`shape.properties()`), modelled as an association list with first-match
lookup (Python dict `.get`). -/
structure Shape where
  polygon : Polygon
  properties : List (String × String)
  deriving DecidableEq, Repr

/-- Abstract model of the klayout geometry operations used by the source,
over an abstract region carrier `R`:
`split` is `Polygon.split()` (decompose into non-self-intersecting parts),
`regionOf` is the `Region(part)` constructor, `add` is region `+=`
(boolean union accumulation), and `mergedEach` is `region.merged().each()`
(the disjoint polygons of the merged union, in iterator order). -/
structure GeomEngine (R : Type) where
  split : Polygon → List Polygon
  regionOf : Polygon → R
  add : R → R → R
  mergedEach : R → List Polygon

/-- The normalizer's output record `{name, hull_points, hole_points}`.
Coordinates are rationals (idealized Python floats). -/
structure NormalizedPolygon where
  name : Option String
  hull_points : List (ℚ × ℚ)
  hole_points : List (List (ℚ × ℚ))
  deriving DecidableEq, Repr

/-- The region accumulated by the source's loop
`region = next(regions); for new_region in regions: region += new_region`,
where `regions = (Region(part) for part in parts)` and `parts = q :: qs`. -/
def regionFold {R : Type} (G : GeomEngine R) (q : Polygon) (qs : List Polygon) : R :=
  List.foldl G.add (G.regionOf q) (qs.map G.regionOf)

/-- The disjoint polygons of `region.merged()` for the accumulated region of
parts `q :: qs`, in the order `each()` yields them. -/
def mergedParts {R : Type} (G : GeomEngine R) (q : Polygon) (qs : List Polygon) : List Polygon :=
  G.mergedEach (regionFold G q qs)

/-- Model of `parse_polygon(shape, name_property, scale_factor)`:
split the shape's polygon into parts, union the parts' regions, merge, take
the FIRST merged polygon, scale its hull and hole vertices by `scale_factor`,
and attach the name looked up in the property bag.  The two unguarded
`next(...)` calls of the source (on the parts generator and on the merged
iterator) are the two `[]` branches, which model an escaping
`StopIteration` as `none`. -/
def parse_polygon {R : Type} (G : GeomEngine R) (shape : Shape) (name_property : String)
    (scale_factor : ℚ) : Option NormalizedPolygon :=
  match G.split shape.polygon with
  | [] => none
  | q :: qs =>
    match mergedParts G q qs with
    | [] => none
    | poly :: _ =>
      some
        { name := shape.properties.lookup name_property,
          hull_points :=
            poly.each_point_hull.map fun p =>
              ((p.x : ℚ) * scale_factor, (p.y : ℚ) * scale_factor),
          hole_points :=
            (List.range poly.holes.length).map fun hole =>
              (poly.each_point_hole hole).map fun p =>
                ((p.x : ℚ) * scale_factor, (p.y : ℚ) * scale_factor) }

/-- A klayout `LayerInfo`: the layer's descriptive name. -/
structure LayerInfo where
  name : String
  deriving DecidableEq, Repr

/-- A klayout `Cell`: `each_shape(layerIndex)` yields the shapes found
directly in the cell on that layer, in native order (no recursion into
child cells). -/
structure Cell where
  each_shape : Nat → List Shape

/-- An opened klayout `Layout`: `dbu` is the database unit in MICROMETERS
(klayout's convention, hence the `-6` in the source's scale formula),
`layerIndexes`/`layerInfos` are what `layout.layer_indexes()` and
`layout.layer_infos()` return, and `cells` maps cell names to cells
(`layout.cell(name)` returns `None` when absent). -/
structure Layout where
  dbu : ℚ
  layerIndexes : List Nat
  layerInfos : List LayerInfo
  cells : List (String × Cell)

/-- klayout `layout.cell(name)`: the named cell, or `none`. -/
def Layout.cell (L : Layout) (c : String) : Option Cell := L.cells.lookup c

/-- The source's `zip(layout.layer_indexes(), layout.layer_infos())`. -/
def Layout.layerPairs (L : Layout) : List (Nat × LayerInfo) :=
  L.layerIndexes.zip L.layerInfos

/-- One entry of the loader's output: `dict(name=info.name, shapes=shapes)`. -/
structure LayerResult where
  name : String
  shapes : List NormalizedPolygon
  deriving DecidableEq, Repr

/-- The loader's failure modes, named after the spec's error taxonomy:
`invalidInput` is the source's `ValueError` on a bad path, `missingCell` the
`KeyError` on a missing cell, `stopIteration` a `StopIteration` escaping
from `parse_polygon`. -/
inductive LoadError where
  | invalidInput
  | missingCell
  | stopIteration
  deriving DecidableEq, Repr

/-- The two path predicates the source queries: `file.exists()` and
`file.is_file()`. -/
structure FPath where
  pathExists : Bool
  isFile : Bool
  deriving DecidableEq, Repr

/-- Exact rational value of the source's scale factor for positive `dbu`:
`dbu * 10 ^ (-6 - e)`, i.e. `(dbu * 10⁻⁶) / 10 ^ e` — the database unit in
meters divided by the requested power-of-ten unit.  Theorem
`scaleFactorSrc_eq_scaleFactorQ` proves this equals the source's
floating-point formula idealized over ℝ. -/
def scaleFactorQ (dbu : ℚ) (e : ℤ) : ℚ := dbu * 10 ^ (-6 - e)

/-- Line 93 of the source, idealized over the reals:
`scale_factor = 10 ** (-6 + math.log10(layout.dbu) - length_unit_exponent)`. -/
noncomputable def scaleFactorSrc (dbu : ℝ) (e : ℤ) : ℝ :=
  (10 : ℝ) ^ ((-6 : ℝ) + Real.logb 10 dbu - (e : ℝ))

/-- The source's inner loop
`for _, shape in enumerate(devicegen_cell.each_shape(layer)): shapes.append(parse_polygon(...))`:
parse each shape in native order; a `StopIteration` escaping from
`parse_polygon` aborts the whole run (`none`). -/
def processShapes {R : Type} (G : GeomEngine R) (np : String) (sf : ℚ) :
    List Shape → Option (List NormalizedPolygon)
  | [] => some []
  | s :: rest => do
    let p ← parse_polygon G s np sf
    let ps ← processShapes G np sf rest
    pure (p :: ps)

/-- The source's outer loop
`for layer, info in zip(layout.layer_indexes(), layout.layer_infos()): ...`:
build one `LayerResult` per (index, info) pair, in native order. -/
def processLayers {R : Type} (G : GeomEngine R) (c : Cell) (np : String) (sf : ℚ) :
    List (Nat × LayerInfo) → Option (List LayerResult)
  | [] => some []
  | (idx, info) :: rest => do
    let shapes ← processShapes G np sf (c.each_shape idx)
    let restResults ← processLayers G c np sf rest
    pure ({ name := info.name, shapes := shapes } :: restResults)

/-- Model of `load_klayout(file, cell, name_property, length_unit_exponent)`:
raise `invalidInput` unless the path is an existing regular file; read the
layout (modelled by receiving the layout the file denotes); compute the
scale factor once; look up the cell, raising `missingCell` when absent; then
iterate all layers and their shapes in native order. -/
def load_klayout {R : Type} (G : GeomEngine R) (file : FPath) (layout : Layout)
    (cell : String) (name_property : String) (length_unit_exponent : ℤ) :
    Except LoadError (List LayerResult) :=
  if !file.pathExists || !file.isFile then .error .invalidInput
  else
    let scale_factor := scaleFactorQ layout.dbu length_unit_exponent
    match layout.cell cell with
    | none => .error .missingCell
    | some devicegen_cell =>
      match processLayers G devicegen_cell name_property scale_factor layout.layerPairs with
      | none => .error .stopIteration
      | some layers => .ok layers

/-- Concrete demo geometry used to exercise the model: a 10×10 square. -/
def squarePoly : Polygon :=
  { hull := [⟨0, 0⟩, ⟨10, 0⟩, ⟨10, 10⟩, ⟨0, 10⟩], holes := [] }

/-- Left half of the demo square. -/
def leftHalfPoly : Polygon :=
  { hull := [⟨0, 0⟩, ⟨5, 0⟩, ⟨5, 10⟩, ⟨0, 10⟩], holes := [] }

/-- Right half of the demo square. -/
def rightHalfPoly : Polygon :=
  { hull := [⟨5, 0⟩, ⟨10, 0⟩, ⟨10, 10⟩, ⟨5, 10⟩], holes := [] }

/-- A stored representation of the demo square pre-split into two parts by a
line cut: a distinct polygon value (note the duplicated closing vertex) that
the demo engine's `split` decomposes into the two halves. -/
def splitSquarePoly : Polygon :=
  { hull := [⟨0, 0⟩, ⟨10, 0⟩, ⟨10, 10⟩, ⟨0, 10⟩, ⟨0, 0⟩], holes := [] }

/-- A 12×12 square with a 4-vertex square hole. -/
def holedSquarePoly : Polygon :=
  { hull := [⟨0, 0⟩, ⟨12, 0⟩, ⟨12, 12⟩, ⟨0, 12⟩],
    holes := [[⟨4, 4⟩, ⟨8, 4⟩, ⟨8, 8⟩, ⟨4, 8⟩]] }

/-- Concrete geometry engine for witnesses.  Regions are bags of polygons;
`split` cuts `splitSquarePoly` into its two halves and leaves every other
polygon whole; merging reunites the two halves into the square and leaves
anything else unchanged. -/
def demoEngine : GeomEngine (List Polygon) :=
  { split := fun p => if p = splitSquarePoly then [leftHalfPoly, rightHalfPoly] else [p],
    regionOf := fun p => [p],
    add := fun a b => a ++ b,
    mergedEach := fun rs =>
      if rs = [leftHalfPoly, rightHalfPoly] then [squarePoly] else rs }

/-- Degenerate engine whose `split` yields no parts, making the source's
first `next(...)` raise `StopIteration`. -/
def emptySplitEngine : GeomEngine (List Polygon) :=
  { split := fun _ => [],
    regionOf := fun p => [p],
    add := fun a b => a ++ b,
    mergedEach := fun rs => rs }

/-- Degenerate engine whose merged union is empty, making the source's
second `next(...)` raise `StopIteration`. -/
def emptyMergeEngine : GeomEngine (List Polygon) :=
  { split := fun p => [p],
    regionOf := fun p => [p],
    add := fun a b => a ++ b,
    mergedEach := fun _ => [] }

/-- Engine whose merged union yields two disjoint polygons for the demo
square, exercising the more-than-one-merged-result path. -/
def twoResultEngine : GeomEngine (List Polygon) :=
  { split := fun p => [p],
    regionOf := fun p => [p],
    add := fun a b => a ++ b,
    mergedEach := fun _ => [squarePoly, rightHalfPoly] }

/-- Demo shape: the square with a name property. -/
def squareShape : Shape :=
  { polygon := squarePoly, properties := [("devicegen_name", "pad1")] }

/-- Demo shape: the pre-split square, same property bag as `squareShape`. -/
def splitSquareShape : Shape :=
  { polygon := splitSquarePoly, properties := [("devicegen_name", "pad1")] }

/-- Demo shape with an empty property bag. -/
def unnamedShape : Shape :=
  { polygon := squarePoly, properties := [] }

/-- Demo shape: the holed square. -/
def holedShape : Shape :=
  { polygon := holedSquarePoly, properties := [] }

/-- Demo cell holding `squareShape` on layer index 0. -/
def demoCell : Cell :=
  { each_shape := fun idx => if idx = 0 then [squareShape] else [] }

/-- Demo layout: dbu of 1/1000 µm (i.e. 1 nm per database unit), one layer
named `metal1`, one cell named `devicegen`. -/
def demoLayout : Layout :=
  { dbu := 1 / 1000,
    layerIndexes := [0],
    layerInfos := [{ name := "metal1" }],
    cells := [("devicegen", demoCell)] }

/-- Demo layout with no cells at all. -/
def emptyLayout : Layout :=
  { dbu := 1 / 1000,
    layerIndexes := [0],
    layerInfos := [{ name := "metal1" }],
    cells := [] }

/-- An existing regular file. -/
def okFile : FPath := { pathExists := true, isFile := true }

/-- A nonexistent path. -/
def missingFile : FPath := { pathExists := false, isFile := true }

/-- Expected normalization of `squareShape` at scale factor 1. -/
def squareNorm : NormalizedPolygon :=
  { name := some "pad1",
    hull_points := [(0, 0), (10, 0), (10, 10), (0, 10)],
    hole_points := [] }

/-- The expected output of the demo run: one layer `metal1` holding the
normalized demo square. -/
def demoResult : List LayerResult :=
  [{ name := "metal1", shapes := [squareNorm] }]

/-- The source's scale formula, idealized over ℝ, computes exactly the
rational `scaleFactorQ`: for `dbu > 0`,
`10 ^ (-6 + log10 dbu - e) = dbu * 10 ^ (-6 - e)`. -/
theorem scaleFactorSrc_eq_scaleFactorQ (dbu : ℚ) (e : ℤ) (h : 0 < dbu) :
    scaleFactorSrc (dbu : ℝ) e = ((scaleFactorQ dbu e : ℚ) : ℝ) := by
  have hd : (0 : ℝ) < (dbu : ℝ) := by exact_mod_cast h
  unfold scaleFactorSrc scaleFactorQ
  push_cast
  rw [sub_eq_add_neg, Real.rpow_add (by norm_num), Real.rpow_add (by norm_num),
    Real.rpow_logb (by norm_num) (by norm_num) hd,
    show ((-6 : ℝ)) = ((-6 : ℤ) : ℝ) by norm_num, Real.rpow_intCast,
    show (-(e : ℝ)) = (((-e : ℤ) : ℤ) : ℝ) by push_cast; ring, Real.rpow_intCast]
  rw [sub_eq_add_neg, zpow_add₀ (by norm_num : (10 : ℝ) ≠ 0)]
  ring

/-- Evaluation of `parse_polygon` when the split yields parts `q :: qs` and
the merged union yields `m :: ms`: the result is built from `m` alone. -/
theorem parse_polygon_of_merge {R : Type} (G : GeomEngine R) (s : Shape) (np : String)
    (sf : ℚ) (q m : Polygon) (qs ms : List Polygon)
    (hsplit : G.split s.polygon = q :: qs)
    (hmerge : mergedParts G q qs = m :: ms) :
    parse_polygon G s np sf =
      some
        { name := s.properties.lookup np,
          hull_points := m.each_point_hull.map fun p => ((p.x : ℚ) * sf, (p.y : ℚ) * sf),
          hole_points :=
            (List.range m.holes.length).map fun hole =>
              (m.each_point_hole hole).map fun p => ((p.x : ℚ) * sf, (p.y : ℚ) * sf) } := by
  simp only [parse_polygon, hsplit, hmerge]

/-- Reading a list back through `List.range`/`getD` is just mapping it. -/
theorem map_range_getD {α β : Type} (d : α) (g : α → β) (l : List α) :
    (List.range l.length).map (fun i => g (l.getD i d)) = l.map g := by
  apply List.ext_getElem
  · simp
  · intro i h1 h2
    simp only [List.getElem_map, List.getElem_range]
    rw [List.getD_eq_getElem]

/-- Soundness of the inner shape loop: on success, one parsed polygon per
shape, in order. -/
theorem processShapes_sound {R : Type} (G : GeomEngine R) (np : String) (sf : ℚ)
    (l : List Shape) :
    ∀ r : List NormalizedPolygon,
      processShapes G np sf l = some r →
      r.length = l.length ∧
        ∀ j (hj : j < l.length) (hj' : j < r.length),
          parse_polygon G l[j] np sf = some r[j] := by
  induction l with
  | nil =>
    intro r h
    simp only [processShapes, Option.some.injEq] at h
    subst h
    exact ⟨rfl, fun j hj _ => absurd hj (Nat.not_lt_zero j)⟩
  | cons s rest ih =>
    intro r h
    simp only [processShapes] at h
    cases hp : parse_polygon G s np sf with
    | none => rw [hp] at h; simp at h
    | some p =>
      rw [hp] at h
      cases hr : processShapes G np sf rest with
      | none => rw [hr] at h; simp at h
      | some ps =>
        rw [hr] at h
        simp at h
        subst h
        obtain ⟨ihlen, ihget⟩ := ih ps hr
        refine ⟨by simp [ihlen], ?_⟩
        intro j hj hj'
        cases j with
        | zero => simpa using hp
        | succ j =>
          simp only [List.getElem_cons_succ]
          exact ihget j (Nat.lt_of_succ_lt_succ hj) (Nat.lt_of_succ_lt_succ hj')

/-- Soundness of the outer layer loop: on success, one `LayerResult` per
(index, info) pair, in order, each with that layer's name and shape list. -/
theorem processLayers_sound {R : Type} (G : GeomEngine R) (c : Cell) (np : String) (sf : ℚ)
    (l : List (Nat × LayerInfo)) :
    ∀ r : List LayerResult,
      processLayers G c np sf l = some r →
      r.length = l.length ∧
        ∀ i (hi : i < l.length) (hi' : i < r.length),
          r[i].name = l[i].2.name ∧
          processShapes G np sf (c.each_shape l[i].1) = some r[i].shapes := by
  induction l with
  | nil =>
    intro r h
    simp only [processLayers, Option.some.injEq] at h
    subst h
    exact ⟨rfl, fun i hi _ => absurd hi (Nat.not_lt_zero i)⟩
  | cons pr rest ih =>
    obtain ⟨idx, info⟩ := pr
    intro r h
    simp only [processLayers] at h
    cases hs : processShapes G np sf (c.each_shape idx) with
    | none => rw [hs] at h; simp at h
    | some shapes =>
      rw [hs] at h
      cases hr : processLayers G c np sf rest with
      | none => rw [hr] at h; simp at h
      | some restResults =>
        rw [hr] at h
        simp at h
        subst h
        obtain ⟨ihlen, ihget⟩ := ih restResults hr
        refine ⟨by simp [ihlen], ?_⟩
        intro i hi hi'
        cases i with
        | zero => exact ⟨rfl, hs⟩
        | succ i =>
          simp only [List.getElem_cons_succ]
          exact ihget i (Nat.lt_of_succ_lt_succ hi) (Nat.lt_of_succ_lt_succ hi')

/-- A successful load means the layer loop succeeded on the looked-up cell
with the run's scale factor. -/
theorem load_klayout_ok {R : Type} (G : GeomEngine R) (f : FPath) (L : Layout)
    (cellName np : String) (e : ℤ) (c : Cell) (ls : List LayerResult)
    (hcell : L.cell cellName = some c)
    (hok : load_klayout G f L cellName np e = .ok ls) :
    processLayers G c np (scaleFactorQ L.dbu e) L.layerPairs = some ls := by
  unfold load_klayout at hok
  split at hok
  · simp at hok
  · rw [hcell] at hok
    simp only [] at hok
    cases hpl : processLayers G c np (scaleFactorQ L.dbu e) L.layerPairs with
    | none => rw [hpl] at hok; simp at hok
    | some ls' =>
      rw [hpl] at hok
      simp only [Except.ok.injEq] at hok
      subst hok
      rfl

/-- C1: for every layout with database-unit-to-meter factor `d = dbu·10⁻⁶`
and requested exponent `e`, the loader's scale factor (source line 93,
idealized over ℝ) equals `d / 10^e`; every output coordinate of a
normalized polygon equals the corresponding raw database-unit coordinate of
the merged polygon times that factor; and `d = 10⁻⁹` (i.e. `dbu = 10⁻³` µm)
with `e = -9` gives scale factor 1 and unchanged coordinates. -/
theorem scale_factor_and_coordinates {R : Type} (G : GeomEngine R)
    (dbu : ℚ) (e : ℤ) (hdbu : 0 < dbu)
    (s : Shape) (np : String) (P : NormalizedPolygon)
    (q m : Polygon) (qs ms : List Polygon)
    (hsplit : G.split s.polygon = q :: qs)
    (hmerge : mergedParts G q qs = m :: ms)
    (hP : parse_polygon G s np (scaleFactorQ dbu e) = some P) :
    scaleFactorSrc (dbu : ℝ) e = ((dbu : ℝ) * (10 : ℝ) ^ (-6 : ℤ)) / (10 : ℝ) ^ e ∧
    P.hull_points =
      m.hull.map (fun p => ((p.x : ℚ) * scaleFactorQ dbu e, (p.y : ℚ) * scaleFactorQ dbu e)) ∧
    P.hole_points =
      m.holes.map (fun hps =>
        hps.map fun p => ((p.x : ℚ) * scaleFactorQ dbu e, (p.y : ℚ) * scaleFactorQ dbu e)) ∧
    (dbu = 1 / 1000 → e = -9 → scaleFactorQ dbu e = 1) := by
  have hPeq := parse_polygon_of_merge G s np (scaleFactorQ dbu e) q m qs ms hsplit hmerge
  rw [hP] at hPeq
  have hPval := Option.some.inj hPeq
  subst hPval
  refine ⟨?_, ?_, ?_, ?_⟩
  · rw [scaleFactorSrc_eq_scaleFactorQ dbu e hdbu]
    unfold scaleFactorQ
    push_cast
    rw [zpow_sub₀ (by norm_num : (10 : ℝ) ≠ 0)]
    ring
  · rfl
  · simp only [Polygon.each_point_hole]
    exact map_range_getD [] (fun hps => hps.map _) m.holes
  · intro h1 h2
    subst h1
    subst h2
    norm_num [scaleFactorQ]

/-- Witness for C1 at `dbu = 10⁻³` µm (1 nm per database unit), `e = -9`,
on the demo square shape. -/
theorem scale_factor_and_coordinates_witness :
    scaleFactorSrc ((1 / 1000 : ℚ) : ℝ) (-9) =
      (((1 / 1000 : ℚ) : ℝ) * (10 : ℝ) ^ (-6 : ℤ)) / (10 : ℝ) ^ (-9 : ℤ) ∧
    scaleFactorQ (1 / 1000) (-9) = 1 ∧
    parse_polygon demoEngine squareShape "devicegen_name" (scaleFactorQ (1 / 1000) (-9)) =
      some squareNorm := by
  have hone : scaleFactorQ (1 / 1000) (-9) = 1 := by
    unfold scaleFactorQ
    norm_num
  have hP : parse_polygon demoEngine squareShape "devicegen_name" (scaleFactorQ (1 / 1000) (-9)) =
      some squareNorm := by
    rw [hone, parse_polygon_of_merge demoEngine squareShape "devicegen_name" 1
      squarePoly squarePoly [] [] (by decide) (by decide)]
    simp [squarePoly, squareShape, squareNorm, Polygon.each_point_hull, Polygon.each_point_hole]
  have h := scale_factor_and_coordinates demoEngine (1 / 1000) (-9) (by norm_num)
    squareShape "devicegen_name" squareNorm squarePoly squarePoly [] []
    (by decide) (by decide) hP
  exact ⟨h.1, h.2.2.2 rfl rfl, hP⟩

/-- C2: `parse_polygon` splits the shape's polygon into parts, unions the
parts' regions, merges, and builds its output from exactly the FIRST merged
polygon `m`: the result below does not depend on the remaining disjoint
merged polygons `ms`, which are dropped. -/
theorem first_merged_polygon_used {R : Type} (G : GeomEngine R) (s : Shape)
    (np : String) (sf : ℚ) (q m : Polygon) (qs ms : List Polygon)
    (hsplit : G.split s.polygon = q :: qs)
    (hmerge : mergedParts G q qs = m :: ms) :
    parse_polygon G s np sf =
      some
        { name := s.properties.lookup np,
          hull_points := m.hull.map fun p => ((p.x : ℚ) * sf, (p.y : ℚ) * sf),
          hole_points :=
            m.holes.map fun hps => hps.map fun p => ((p.x : ℚ) * sf, (p.y : ℚ) * sf) } := by
  have h3 :
      (List.range m.holes.length).map
          (fun hole => (m.each_point_hole hole).map fun p => ((p.x : ℚ) * sf, (p.y : ℚ) * sf)) =
        m.holes.map fun hps => hps.map fun p => ((p.x : ℚ) * sf, (p.y : ℚ) * sf) := by
    simp only [Polygon.each_point_hole]
    exact map_range_getD [] (fun hps => hps.map _) m.holes
  rw [parse_polygon_of_merge G s np sf q m qs ms hsplit hmerge, h3]
  rfl

/-- Witness for C2: an engine whose merged union yields TWO disjoint
polygons for the demo square; the second (`rightHalfPoly`) is dropped and
the output is built from the first (`squarePoly`) alone. -/
theorem first_merged_polygon_used_witness :
    parse_polygon twoResultEngine squareShape "devicegen_name" 1 =
      some
        { name := some "pad1",
          hull_points := squarePoly.hull.map fun p => ((p.x : ℚ) * 1, (p.y : ℚ) * 1),
          hole_points :=
            squarePoly.holes.map fun hps =>
              hps.map fun p => ((p.x : ℚ) * 1, (p.y : ℚ) * 1) } :=
  first_merged_polygon_used twoResultEngine squareShape "devicegen_name" 1
    squarePoly squarePoly [] [rightHalfPoly] (by decide) (by decide)

/-- C3: a simple polygon with no holes supplied pre-split into 2 disjoint
parts whose merged union reconstructs the same polygon `P` normalizes
identically (same name, hull_points and hole_points) to the same polygon
supplied as a single unsplit part, provided the property bags agree. -/
theorem presplit_normalizes_identically {R : Type} (G : GeomEngine R) (s u : Shape)
    (np : String) (sf : ℚ) (P a b : Polygon)
    (hprops : u.properties = s.properties)
    (hs : G.split s.polygon = [s.polygon])
    (hsm : mergedParts G s.polygon [] = [P])
    (hu : G.split u.polygon = [a, b])
    (hum : mergedParts G a [b] = [P]) :
    parse_polygon G u np sf = parse_polygon G s np sf := by
  rw [parse_polygon_of_merge G u np sf a P [b] [] hu hum,
    parse_polygon_of_merge G s np sf s.polygon P [] [] hs hsm, hprops]

/-- Witness for C3: the demo square supplied whole versus pre-split into its
two halves (which the demo engine re-merges into the square) normalize to
the same output. -/
theorem presplit_normalizes_identically_witness :
    parse_polygon demoEngine splitSquareShape "devicegen_name" 1 =
      parse_polygon demoEngine squareShape "devicegen_name" 1 :=
  presplit_normalizes_identically demoEngine squareShape splitSquareShape
    "devicegen_name" 1 squarePoly leftHalfPoly rightHalfPoly
    rfl (by decide) (by decide) (by decide) (by decide)

/-- C4: the normalizer puts the merged polygon's hull vertices, in native
order, into `hull_points`, and each hole's vertices into its own entry of
`hole_points` in hole-index order; in particular a merged polygon with a
4-vertex hull and one 4-vertex hole yields `hull_points` of length 4 and
`hole_points` of length 1 whose single entry has length 4. -/
theorem hull_hole_extraction {R : Type} (G : GeomEngine R) (s : Shape)
    (np : String) (sf : ℚ) (q m : Polygon) (qs ms : List Polygon)
    (P : NormalizedPolygon)
    (hsplit : G.split s.polygon = q :: qs)
    (hmerge : mergedParts G q qs = m :: ms)
    (hP : parse_polygon G s np sf = some P) :
    P.hull_points = m.hull.map (fun p => ((p.x : ℚ) * sf, (p.y : ℚ) * sf)) ∧
    P.hole_points =
      m.holes.map (fun hps => hps.map fun p => ((p.x : ℚ) * sf, (p.y : ℚ) * sf)) ∧
    P.hull_points.length = m.hull.length ∧
    P.hole_points.length = m.holes.length ∧
    (∀ i, i < m.holes.length →
      (P.hole_points.getD i []).length = (m.holes.getD i []).length) ∧
    (m.hull.length = 4 → m.holes.length = 1 → (m.holes.getD 0 []).length = 4 →
      P.hull_points.length = 4 ∧ P.hole_points.length = 1 ∧
        (P.hole_points.getD 0 []).length = 4) := by
  have hPeq := parse_polygon_of_merge G s np sf q m qs ms hsplit hmerge
  rw [hP] at hPeq
  have hPval := Option.some.inj hPeq
  have hhull : P.hull_points = m.hull.map (fun p => ((p.x : ℚ) * sf, (p.y : ℚ) * sf)) := by
    rw [hPval]
    rfl
  have hholes :
      P.hole_points = m.holes.map fun hps => hps.map fun p => ((p.x : ℚ) * sf, (p.y : ℚ) * sf) := by
    rw [hPval]
    show (List.range m.holes.length).map
        (fun hole => (m.each_point_hole hole).map fun p => ((p.x : ℚ) * sf, (p.y : ℚ) * sf)) =
      m.holes.map fun hps => hps.map fun p => ((p.x : ℚ) * sf, (p.y : ℚ) * sf)
    simp only [Polygon.each_point_hole]
    exact map_range_getD [] (fun hps => hps.map _) m.holes
  refine ⟨hhull, hholes, by rw [hhull]; simp, by rw [hholes]; simp, ?_, ?_⟩
  · intro i hi
    have hi' :
        i < (m.holes.map fun hps =>
          hps.map fun p => ((p.x : ℚ) * sf, (p.y : ℚ) * sf)).length := by
      simpa using hi
    rw [hholes, List.getD_eq_getElem _ _ hi', List.getD_eq_getElem _ _ hi, List.getElem_map]
    simp
  · intro h4 h1 hh4
    refine ⟨by rw [hhull]; simp [h4], by rw [hholes]; simp [h1], ?_⟩
    have hlt : 0 < m.holes.length := by omega
    have hlt' :
        0 < (m.holes.map fun hps =>
          hps.map fun p => ((p.x : ℚ) * sf, (p.y : ℚ) * sf)).length := by
      simpa using hlt
    rw [hholes, List.getD_eq_getElem _ _ hlt', List.getElem_map]
    rw [List.getD_eq_getElem _ _ hlt] at hh4
    simpa using hh4

/-- Witness for C4: the holed demo square (4-vertex hull, one 4-vertex
hole) yields hull length 4, one hole entry, inner length 4. -/
theorem hull_hole_extraction_witness :
    ∃ P, parse_polygon demoEngine holedShape "devicegen_name" 1 = some P ∧
      P.hull_points.length = 4 ∧ P.hole_points.length = 1 ∧
      (P.hole_points.getD 0 []).length = 4 := by
  have hP := parse_polygon_of_merge demoEngine holedShape "devicegen_name" 1
    holedSquarePoly holedSquarePoly [] [] (by decide) (by decide)
  have h := hull_hole_extraction demoEngine holedShape "devicegen_name" 1
    holedSquarePoly holedSquarePoly [] [] _ (by decide) (by decide) hP
  exact ⟨_, hP, (h.2.2.2.2.2 (by decide) (by decide) (by decide))⟩

/-- C7: when the configured name-property key is absent from the shape's
property bag, the normalizer still succeeds (given the geometry pipeline
produces a merged polygon) and the output name is null; an empty property
bag always lacks the key and is handled the same way. -/
theorem missing_name_gives_null {R : Type} (G : GeomEngine R) (s : Shape)
    (np : String) (sf : ℚ) (q m : Polygon) (qs ms : List Polygon)
    (hsplit : G.split s.polygon = q :: qs)
    (hmerge : mergedParts G q qs = m :: ms)
    (hmiss : s.properties.lookup np = none) :
    (∃ P, parse_polygon G s np sf = some P ∧ P.name = none) ∧
    (∀ t : Shape, t.properties = [] → t.properties.lookup np = none) := by
  refine ⟨⟨_, parse_polygon_of_merge G s np sf q m qs ms hsplit hmerge, ?_⟩, ?_⟩
  · simpa using hmiss
  · intro t ht
    rw [ht]
    rfl

/-- Witness for C7: the unnamed demo shape (empty property bag) normalizes
with a null name. -/
theorem missing_name_gives_null_witness :
    (∃ P, parse_polygon demoEngine unnamedShape "devicegen_name" 1 = some P ∧
      P.name = none) ∧
    (∀ t : Shape, t.properties = [] → t.properties.lookup "devicegen_name" = none) :=
  missing_name_gives_null demoEngine unnamedShape "devicegen_name" 1
    squarePoly squarePoly [] [] (by decide) (by decide) rfl

/-- C9: shape normalization is a pure function of its inputs: equal inputs
give equal outputs, and normalizing a run's shapes in any other order
permutes the same per-shape results. -/
theorem normalize_pure_and_order_independent {R : Type} (G : GeomEngine R)
    (np : String) (sf : ℚ) (s t : Shape) (hst : s = t)
    (l1 l2 : List Shape) (hperm : l1.Perm l2) :
    parse_polygon G s np sf = parse_polygon G t np sf ∧
    (l1.map fun x => parse_polygon G x np sf).Perm
      (l2.map fun x => parse_polygon G x np sf) := by
  subst hst
  exact ⟨rfl, hperm.map _⟩

/-- Witness for C9: the demo shapes processed in either order yield
permuted per-shape results. -/
theorem normalize_pure_and_order_independent_witness :
    parse_polygon demoEngine squareShape "devicegen_name" 1 =
      parse_polygon demoEngine squareShape "devicegen_name" 1 ∧
    ([squareShape, unnamedShape].map fun x => parse_polygon demoEngine x "devicegen_name" 1).Perm
      ([unnamedShape, squareShape].map fun x => parse_polygon demoEngine x "devicegen_name" 1) :=
  normalize_pure_and_order_independent demoEngine "devicegen_name" 1
    squareShape squareShape rfl [squareShape, unnamedShape] [unnamedShape, squareShape]
    (List.Perm.swap unnamedShape squareShape [])

/-- C10: `parse_polygon` is partial at its interface: an empty split or an
empty merged union makes it fail (an escaping `StopIteration`, modelled as
`none`) instead of returning a polygon; when the split yields at least one
part and the merged union is non-empty, it returns a `NormalizedPolygon`. -/
theorem parse_polygon_partiality {R : Type} (G : GeomEngine R) (s : Shape)
    (np : String) (sf : ℚ) :
    (G.split s.polygon = [] → parse_polygon G s np sf = none) ∧
    (∀ q qs, G.split s.polygon = q :: qs → mergedParts G q qs = [] →
      parse_polygon G s np sf = none) ∧
    (∀ q qs, G.split s.polygon = q :: qs → ∀ m ms, mergedParts G q qs = m :: ms →
      ∃ P, parse_polygon G s np sf = some P) := by
  refine ⟨fun h => ?_, fun q qs h1 h2 => ?_, fun q qs h1 m ms h2 =>
    ⟨_, parse_polygon_of_merge G s np sf q m qs ms h1 h2⟩⟩
  · simp only [parse_polygon, h]
  · simp only [parse_polygon, h1, h2]

/-- Witness for C10: both degenerate engines make the demo shape fail, and
the demo engine succeeds. -/
theorem parse_polygon_partiality_witness :
    parse_polygon emptySplitEngine squareShape "devicegen_name" 1 = none ∧
    parse_polygon emptyMergeEngine squareShape "devicegen_name" 1 = none ∧
    ∃ P, parse_polygon demoEngine squareShape "devicegen_name" 1 = some P := by
  refine ⟨(parse_polygon_partiality emptySplitEngine squareShape "devicegen_name" 1).1 rfl,
    (parse_polygon_partiality emptyMergeEngine squareShape "devicegen_name" 1).2.1
      squarePoly [] (by decide) (by decide),
    (parse_polygon_partiality demoEngine squareShape "devicegen_name" 1).2.2
      squarePoly [] (by decide) squarePoly [] (by decide)⟩

/-- C5: a path that does not reference an existing regular file makes the
loader fail with the InvalidInput error, for EVERY layout content (so
before the layout is opened and before any layer iteration), and no result
list is ever produced. -/
theorem invalid_file_rejected {R : Type} (G : GeomEngine R) (f : FPath) (L : Layout)
    (cellName np : String) (e : ℤ)
    (h : f.pathExists = false ∨ f.isFile = false) :
    load_klayout G f L cellName np e = .error .invalidInput ∧
    ∀ ls, load_klayout G f L cellName np e ≠ .ok ls := by
  have herr : load_klayout G f L cellName np e = .error .invalidInput := by
    unfold load_klayout
    rcases h with h | h <;> simp [h]
  exact ⟨herr, fun ls hok => by rw [herr] at hok; cases hok⟩

/-- Witness for C5: a nonexistent path is rejected on the demo layout. -/
theorem invalid_file_rejected_witness :
    load_klayout demoEngine missingFile demoLayout "devicegen" "devicegen_name" (-9) =
      .error .invalidInput :=
  (invalid_file_rejected demoEngine missingFile demoLayout "devicegen" "devicegen_name" (-9)
    (Or.inl rfl)).1

/-- C6: when the configured cell name is absent from the opened layout, the
loader fails with the MissingCell error, for EVERY layer/shape content of
the layout (so before any layer iteration), and no result list is ever
produced. -/
theorem missing_cell_rejected {R : Type} (G : GeomEngine R) (f : FPath) (L : Layout)
    (cellName np : String) (e : ℤ)
    (hex : f.pathExists = true) (hisf : f.isFile = true)
    (hc : L.cell cellName = none) :
    load_klayout G f L cellName np e = .error .missingCell ∧
    ∀ ls, load_klayout G f L cellName np e ≠ .ok ls := by
  have herr : load_klayout G f L cellName np e = .error .missingCell := by
    unfold load_klayout
    rw [hex, hisf, hc]
    rfl
  exact ⟨herr, fun ls hok => by rw [herr] at hok; cases hok⟩

/-- Witness for C6: the demo cell name is absent from the cell-less layout. -/
theorem missing_cell_rejected_witness :
    load_klayout demoEngine okFile emptyLayout "devicegen" "devicegen_name" (-9) =
      .error .missingCell :=
  (missing_cell_rejected demoEngine okFile emptyLayout "devicegen" "devicegen_name" (-9)
    rfl rfl rfl).1

/-- C8: on success the loader yields one `LayerResult` per (layer index,
layer info) pair of the layout, in the layout's native layer order; each
result carries that layer's name, and its shapes are exactly the
normalizations of the shapes found directly in the target cell on that
layer, in the layout's native shape order. -/
theorem load_layers_in_order {R : Type} (G : GeomEngine R) (f : FPath) (L : Layout)
    (cellName np : String) (e : ℤ) (c : Cell) (ls : List LayerResult)
    (hcell : L.cell cellName = some c)
    (hok : load_klayout G f L cellName np e = .ok ls) :
    ls.length = L.layerPairs.length ∧
    ∀ i (hi : i < L.layerPairs.length) (hi' : i < ls.length),
      (ls[i]).name = (L.layerPairs[i]).2.name ∧
      (ls[i]).shapes.length = (c.each_shape (L.layerPairs[i]).1).length ∧
      ∀ j (hj : j < (c.each_shape (L.layerPairs[i]).1).length)
          (hj' : j < (ls[i]).shapes.length),
        parse_polygon G ((c.each_shape (L.layerPairs[i]).1)[j]) np (scaleFactorQ L.dbu e) =
          some (((ls[i]).shapes)[j]) := by
  have hpl := load_klayout_ok G f L cellName np e c ls hcell hok
  obtain ⟨hlen, hidx⟩ := processLayers_sound G c np (scaleFactorQ L.dbu e) L.layerPairs ls hpl
  refine ⟨hlen, fun i hi hi' => ?_⟩
  obtain ⟨hname, hshapes⟩ := hidx i hi hi'
  obtain ⟨hslen, hsget⟩ :=
    processShapes_sound G np (scaleFactorQ L.dbu e) (c.each_shape (L.layerPairs[i]).1)
      ((ls[i]).shapes) hshapes
  exact ⟨hname, hslen, hsget⟩

/-- Successful evaluation of the loader: when the path checks pass, the
cell is found, and the layer loop succeeds, the loader returns its result. -/
theorem load_klayout_eval {R : Type} (G : GeomEngine R) (f : FPath) (L : Layout)
    (cellName np : String) (e : ℤ) (c : Cell) (ls : List LayerResult)
    (hex : f.pathExists = true) (hisf : f.isFile = true)
    (hcell : L.cell cellName = some c)
    (hpl : processLayers G c np (scaleFactorQ L.dbu e) L.layerPairs = some ls) :
    load_klayout G f L cellName np e = .ok ls := by
  unfold load_klayout
  rw [show (!f.pathExists || !f.isFile) = false by rw [hex, hisf]; rfl]
  simp only [Bool.false_eq_true, if_false, hcell, hpl]

/-- Witness for C8: the demo layout loads to `demoResult`, whose length
matches the layer pair list, and the single shape is the parse of the demo
square at the run's scale factor. -/
theorem load_layers_in_order_witness :
    load_klayout demoEngine okFile demoLayout "devicegen" "devicegen_name" (-9) =
      .ok demoResult ∧
    demoResult.length = demoLayout.layerPairs.length ∧
    parse_polygon demoEngine squareShape "devicegen_name" (scaleFactorQ demoLayout.dbu (-9)) =
      some squareNorm := by
  have hone : scaleFactorQ demoLayout.dbu (-9) = 1 := by
    show scaleFactorQ (1 / 1000) (-9) = 1
    unfold scaleFactorQ
    norm_num
  have hP : parse_polygon demoEngine squareShape "devicegen_name" (scaleFactorQ demoLayout.dbu (-9)) =
      some squareNorm := by
    rw [hone, parse_polygon_of_merge demoEngine squareShape "devicegen_name" 1
      squarePoly squarePoly [] [] (by decide) (by decide)]
    simp [squarePoly, squareShape, squareNorm, Polygon.each_point_hull, Polygon.each_point_hole]
  have hshapes : processShapes demoEngine "devicegen_name" (scaleFactorQ demoLayout.dbu (-9))
      [squareShape] = some [squareNorm] := by
    simp only [processShapes, hP, Option.bind_some]
    rfl
  have hlayers : processLayers demoEngine demoCell "devicegen_name"
      (scaleFactorQ demoLayout.dbu (-9)) demoLayout.layerPairs = some demoResult := by
    show processLayers demoEngine demoCell "devicegen_name"
      (scaleFactorQ demoLayout.dbu (-9)) [(0, { name := "metal1" })] = some demoResult
    simp only [processLayers]
    rw [show demoCell.each_shape 0 = [squareShape] from rfl, hshapes]
    rfl
  have hok : load_klayout demoEngine okFile demoLayout "devicegen" "devicegen_name" (-9) =
      .ok demoResult :=
    load_klayout_eval demoEngine okFile demoLayout "devicegen" "devicegen_name" (-9)
      demoCell demoResult rfl rfl rfl hlayers
  have h := load_layers_in_order demoEngine okFile demoLayout "devicegen" "devicegen_name" (-9)
    demoCell demoResult rfl hok
  exact ⟨hok, h.1, hP⟩
